import Mathlib

/-!
# Verification of the mental-health dashboard aggregation core

Shallow embedding of the aggregation, classification and flow-graph
construction logic of the three coordinated views
(`VennDiagramC.tsx`, the `HeatMap` component, `Sankey.tsx`) and the
page-level selection state (`Layout` in the app root).

Conventions of the embedding:
* A CSV row is a `Record` of string cells.  The Sankey view consumes
  `parseFloat` of the CGPA cell; we carry that parse result as a separate
  field `cgpaParsed : Option ℚ` (`none` models `NaN`, i.e. an unparseable
  cell; JavaScript numbers are abstracted as exact rationals — every
  comparison performed by the code distinguishes only values that are
  also distinguished at double precision).  The HeatMap compares the raw
  CGPA cell textually, which is the `cgpa` field.
* A missing (undefined) cell is modelled as `""`; every use in the source
  either compares with `=== 'Yes'` or `?.toLowerCase() === 'yes'`, and
  `undefined` fails those tests exactly as `""` does.
-/

/-- JavaScript `String.prototype.toLowerCase` on the character sequence
    (ASCII-relevant part; all strings compared in the source are ASCII). -/
def jsToLower (s : String) : String := ⟨s.data.map Char.toLower⟩

/-- JavaScript `String.prototype.startsWith`: the pattern's character
    sequence is a prefix of the string's. -/
def jsStartsWith (s pat : String) : Bool := pat.data.isPrefixOf s.data

/-- One row of `Cleaned_Student_Mental_Health.csv` as the components read it. -/
structure Record where
  /-- cell "Do you have Depression?" -/
  depression : String
  /-- cell "Do you have Anxiety?" -/
  anxiety : String
  /-- cell "Do you have Panic attack?" -/
  panicAttack : String
  /-- raw cell "What is your CGPA?" (compared textually by the HeatMap) -/
  cgpa : String
  /-- result of `parseFloat` on the CGPA cell as used by the Sankey view;
      `none` models `NaN` (unparseable cell) -/
  cgpaParsed : Option ℚ
  /-- cell "Your current year of Study" -/
  year : String
  /-- cell "Did you seek any specialist for a treatment?" -/
  treatment : String
  deriving DecidableEq, Repr

/-! ## Region Classifier (`calculateFrequencies` key construction, VennDiagramC.tsx) -/

/-- One digit of the region key: `d[...]?.toLowerCase() === 'yes' ? 1 : 0`. -/
def yesBit (s : String) : String :=
  if jsToLower s = "yes" then "1" else "0"

/-- The three-character region key built for a record
    (VennDiagramC.tsx lines 84–86, and identically in the HeatMap filter). -/
def regionKey (r : Record) : String :=
  yesBit r.depression ++ yesBit r.anxiety ++ yesBit r.panicAttack

/-- The seven declared keys of the `Combinations` object, in declaration order. -/
def sevenCodes : List String :=
  ["100", "010", "001", "110", "101", "011", "111"]

/-- The `Combinations` record type of VennDiagramC.tsx (seven counters). -/
structure Combinations where
  c100 : Nat
  c010 : Nat
  c001 : Nat
  c110 : Nat
  c101 : Nat
  c011 : Nat
  c111 : Nat
  deriving DecidableEq, Repr

/-- `combinations[key]++` for one record's key.  A key outside the seven
    declared ones (only `"000"` is reachable) writes `NaN` into an extra
    untyped property in JavaScript and leaves all seven declared counters
    unchanged; the embedding tracks the seven declared counters. -/
def bumpComb (c : Combinations) (k : String) : Combinations :=
  if k = "100" then { c with c100 := c.c100 + 1 }
  else if k = "010" then { c with c010 := c.c010 + 1 }
  else if k = "001" then { c with c001 := c.c001 + 1 }
  else if k = "110" then { c with c110 := c.c110 + 1 }
  else if k = "101" then { c with c101 := c.c101 + 1 }
  else if k = "011" then { c with c011 := c.c011 + 1 }
  else if k = "111" then { c with c111 := c.c111 + 1 }
  else c

/-- `calculateFrequencies` of VennDiagramC.tsx: start from all-zero counters
    and bump the counter of each record's region key. -/
def calculateFrequencies (data : List Record) : Combinations :=
  data.foldl (fun c r => bumpComb c (regionKey r)) ⟨0, 0, 0, 0, 0, 0, 0⟩

/-- Map lookup `combinations[code]` for the seven declared keys. -/
def getComb (c : Combinations) (k : String) : Nat :=
  if k = "100" then c.c100
  else if k = "010" then c.c010
  else if k = "001" then c.c001
  else if k = "110" then c.c110
  else if k = "101" then c.c101
  else if k = "011" then c.c011
  else if k = "111" then c.c111
  else 0

/-- Sum of the seven declared counters (`sum(map.values())` over the
    declared keys). -/
def sumComb (c : Combinations) : Nat :=
  c.c100 + c.c010 + c.c001 + c.c110 + c.c101 + c.c011 + c.c111

/-! ## Frequency grid (`initChart` of the HeatMap component) -/

/-- `cgpaRanges` of the HeatMap (note: spaced labels, distinct from the
    Sankey bin labels). -/
def cgpaRanges : List String :=
  ["0 - 1.99", "2.00 - 2.49", "2.50 - 2.99", "3.00 - 3.49", "3.50 - 4.00"]

/-- `yearsOfStudy` of the HeatMap. -/
def yearsOfStudy : List String := ["year 1", "year 2", "year 3", "year 4"]

/-- The HeatMap's region filter: `if (selectedRegion) { filteredData = ... }`.
    `none` models `null`; the empty string is falsy in JavaScript, so it also
    skips filtering. -/
def filterRegion (sel : Option String) (data : List Record) : List Record :=
  match sel with
  | none => data
  | some code =>
      if code = "" then data
      else data.filter (fun r => regionKey r = code)

/-- One entry pushed into `frequencyData`. -/
structure FreqCell where
  cgpa : String
  year : String
  count : Nat
  deriving DecidableEq, Repr

/-- The HeatMap's `frequencyData` construction: for each CGPA range and each
    year label (in that nesting order) count the filtered records whose raw
    CGPA cell and year cell are textually equal to the labels. -/
def frequencyData (sel : Option String) (data : List Record) : List FreqCell :=
  let filteredData := filterRegion sel data
  cgpaRanges.flatMap fun c =>
    yearsOfStudy.map fun y =>
      { cgpa := c, year := y,
        count := (filteredData.filter (fun r => r.cgpa = c ∧ r.year = y)).length }

/-- Total of all cell counts of the frequency grid. -/
def gridTotal (sel : Option String) (data : List Record) : Nat :=
  ((frequencyData sel data).map FreqCell.count).sum

/-! ## Flow graph (`Sankey.tsx`) -/

/-- `getCgpabin` of Sankey.tsx.  `parseFloat` yielding `NaN` (modelled by
    `none`) makes every comparison false, so it falls through to
    `"Unknown"` exactly like a number outside all five ranges. -/
def getCgpabin (cgpa : Option ℚ) : String :=
  match cgpa with
  | none => "Unknown"
  | some c =>
      if 0 ≤ c ∧ c ≤ 1.99 then "0-1.99"
      else if 2.0 ≤ c ∧ c ≤ 2.49 then "2.0-2.49"
      else if 2.5 ≤ c ∧ c ≤ 2.99 then "2.5-2.99"
      else if 3.0 ≤ c ∧ c ≤ 3.49 then "3.0-3.49"
      else if 3.5 ≤ c ∧ c ≤ 4.0 then "3.5-4.0"
      else "Unknown"

/-- `cgpaBinLabels` of Sankey.tsx. -/
def cgpaBinLabels : List String :=
  ["0-1.99", "2.0-2.49", "2.5-2.99", "3.0-3.49", "3.5-4.0"]

/-- JavaScript `Array.prototype.indexOf`: position of the first occurrence,
    `-1` when absent. -/
def jsIndexOf (xs : List String) (x : String) : Int :=
  match xs.indexOf? x with
  | some i => (i : Int)
  | none => -1

/-- The `nodeSort` comparator passed to the sankey layout, as a function of
    the two node names and the active condition (the only data it reads). -/
def nodeSort (selectedCondition : String) (a b : String) : Int :=
  let isCGPAA := cgpaBinLabels.contains a
  let isCGPAB := cgpaBinLabels.contains b
  let isConditionA := jsStartsWith a (selectedCondition ++ " ")
  let isConditionB := jsStartsWith b (selectedCondition ++ " ")
  let isTreatmentA := jsStartsWith a "Treatment "
  let isTreatmentB := jsStartsWith b "Treatment "
  if isCGPAA && isCGPAB then
    jsIndexOf cgpaBinLabels a - jsIndexOf cgpaBinLabels b
  else if isCGPAA then -1
  else if isCGPAB then 1
  else if isConditionA && isConditionB then
    jsIndexOf [selectedCondition ++ " No", selectedCondition ++ " Yes"] a -
      jsIndexOf [selectedCondition ++ " No", selectedCondition ++ " Yes"] b
  else if isConditionA then -1
  else if isConditionB then 1
  else if isTreatmentA && isTreatmentB then
    jsIndexOf ["Treatment No", "Treatment Yes"] a -
      jsIndexOf ["Treatment No", "Treatment Yes"] b
  else if isTreatmentA then -1
  else if isTreatmentB then 1
  else 0

/-- Column lookup `d[`Do you have ${selectedCondition}?`]`; a condition name
    that matches no column reads `undefined`, modelled as `""`. -/
def condAnswer (r : Record) (selectedCondition : String) : String :=
  if selectedCondition = "Depression" then r.depression
  else if selectedCondition = "Anxiety" then r.anxiety
  else if selectedCondition = "Panic attack" then r.panicAttack
  else ""

/-- Name of the CGPA node derived for a record. -/
def cgpaNodeName (r : Record) : String := getCgpabin r.cgpaParsed

/-- Name of the condition node derived for a record:
    `` `${selectedCondition} ${answer === 'Yes' ? 'Yes' : 'No'}` ``. -/
def condNodeName (selectedCondition : String) (r : Record) : String :=
  selectedCondition ++ " " ++
    (if condAnswer r selectedCondition = "Yes" then "Yes" else "No")

/-- Name of the treatment node derived for a record. -/
def treatNodeName (r : Record) : String :=
  "Treatment " ++ (if r.treatment = "Yes" then "Yes" else "No")

/-- `addNode`: the first-seen-order node registry (`nodeMap` plus
    `sankeyData.nodes.push`), here as the ordered list of registered names. -/
def addNode (nodes : List String) (n : String) : List String :=
  if n ∈ nodes then nodes else nodes ++ [n]

/-- The node list produced by the per-record `forEach` of `initChart`. -/
def buildNodes (selectedCondition : String) (data : List Record) : List String :=
  data.foldl
    (fun ns r =>
      addNode (addNode (addNode ns (cgpaNodeName r)) (condNodeName selectedCondition r))
        (treatNodeName r))
    []

/-- One entry of the `linkMap` of `initChart`. -/
structure SLink where
  source : String
  target : String
  value : Nat
  deriving DecidableEq, Repr

/-- One `linkMap` update: increment the entry keyed `"src->tgt"` or insert a
    fresh entry of value 1 at the end (JavaScript `Map` preserves insertion
    order).  The key separator `"->"` occurs in no node name, so keying by
    the pair (source, target) is exact. -/
def addLink (links : List SLink) (s t : String) : List SLink :=
  match links with
  | [] => [⟨s, t, 1⟩]
  | l :: rest =>
      if l.source = s ∧ l.target = t then { l with value := l.value + 1 } :: rest
      else l :: addLink rest s t

/-- The link list produced by the per-record `forEach` of `initChart`:
    per record one CGPA→condition update then one condition→treatment
    update. -/
def buildLinks (selectedCondition : String) (data : List Record) : List SLink :=
  data.foldl
    (fun links r =>
      addLink (addLink links (cgpaNodeName r) (condNodeName selectedCondition r))
        (condNodeName selectedCondition r) (treatNodeName r))
    []

/-- Accumulated weight stored for a given (source, target) key. -/
def linkWeight (links : List SLink) (s t : String) : Nat :=
  ((links.filter fun l => l.source = s ∧ l.target = t).map SLink.value).sum

/-- Sum of the weights of the links whose endpoints satisfy `p`. -/
def sumWeights (p : String → String → Bool) (links : List SLink) : Nat :=
  ((links.filter fun l => p l.source l.target).map SLink.value).sum

/-- A first-stage source name: one of the five bin labels or the sentinel
    `"Unknown"` (the possible outputs of `getCgpabin`). -/
def isCgpaStageName (s : String) : Bool :=
  cgpaBinLabels.contains s || s == "Unknown"

/-- A treatment-stage node name test, as the source performs it. -/
def isTreatmentName (s : String) : Bool := jsStartsWith s "Treatment "

/-- The (source, target) keys of a link list, in order. -/
def linkKeys (links : List SLink) : List (String × String) :=
  links.map fun l => (l.source, l.target)

/-! ## Selection state (`Layout` in the app root) -/

/-- The two `useState` hooks of `Layout`. -/
structure SelectionState where
  selectedRegion : Option String
  selectedCondition : String
  deriving DecidableEq, Repr

/-- Initial state: `useState<string | null>(null)` and
    `useState('Depression')`. -/
def initialState : SelectionState := ⟨none, "Depression"⟩

/-- `setSelectedRegion`: total replacement of the region field. -/
def setSelectedRegion (st : SelectionState) (c : Option String) : SelectionState :=
  { st with selectedRegion := c }

/-- `setSelectedCondition`: total replacement of the condition field. -/
def setSelectedCondition (st : SelectionState) (c : String) : SelectionState :=
  { st with selectedCondition := c }

/-- The three `<option>` values of the condition picker in `Layout`. -/
def conditionOptions : List String := ["Depression", "Panic attack", "Anxiety"]

/-- The region codes wired to click handlers in the Venn view
    (`frequencyPositions` of VennDiagramC.tsx, in source order) — the only
    values `onRegionClick` can ever deliver. -/
def vennClickCodes : List String :=
  ["100", "010", "001", "110", "101", "011", "111"]

/-! ## Sample records (concrete CSV rows used in witnesses and counterexamples) -/

/-- A row whose CGPA cell does not parse (`parseFloat("N/A")` is `NaN`). -/
def recNA : Record := ⟨"Yes", "No", "No", "N/A", none, "year 1", "No"⟩

/-- A row answering no to all three conditions. -/
def recAllNo : Record := ⟨"No", "No", "No", "0 - 1.99", none, "year 1", "No"⟩

/-- A row answering yes to depression only, with grid-valid labels. -/
def recDep : Record := ⟨"Yes", "No", "No", "0 - 1.99", none, "year 1", "No"⟩

/-- A row whose depression cell is the lowercase string "yes". -/
def recLowerYes : Record := ⟨"yes", "No", "No", "0 - 1.99", none, "year 1", "No"⟩

/-- Scenario-B row with CGPA 3.6. -/
def recB1 : Record := ⟨"Yes", "No", "No", "3.50 - 4.00", some 3.6, "year 1", "No"⟩

/-- Scenario-B row identical to `recB1` except CGPA 3.7. -/
def recB2 : Record := ⟨"Yes", "No", "No", "3.50 - 4.00", some 3.7, "year 1", "No"⟩

/-! ## Characterization of `calculateFrequencies` -/

/-- A region key is one of the eight three-digit codes. -/
theorem regionKey_mem (r : Record) : regionKey r ∈ "000" :: sevenCodes := by
  unfold regionKey yesBit sevenCodes
  split_ifs <;> decide

/-- Folding `bumpComb` counts, per declared code, the records whose region
    key equals that code. -/
theorem foldl_bumpComb (data : List Record) :
    ∀ acc : Combinations,
      data.foldl (fun c r => bumpComb c (regionKey r)) acc =
        ⟨acc.c100 + data.countP (fun r => regionKey r = "100"),
         acc.c010 + data.countP (fun r => regionKey r = "010"),
         acc.c001 + data.countP (fun r => regionKey r = "001"),
         acc.c110 + data.countP (fun r => regionKey r = "110"),
         acc.c101 + data.countP (fun r => regionKey r = "101"),
         acc.c011 + data.countP (fun r => regionKey r = "011"),
         acc.c111 + data.countP (fun r => regionKey r = "111")⟩ := by
  induction data with
  | nil => intro acc; simp
  | cons r d ih =>
      intro acc
      have h8 := regionKey_mem r
      simp only [sevenCodes, List.mem_cons, List.not_mem_nil, or_false] at h8
      simp only [List.foldl_cons, List.countP_cons, ih]
      rcases h8 with h | h | h | h | h | h | h | h <;> rw [h] <;>
        simp [bumpComb, Combinations.mk.injEq] <;> omega

/-- `calculateFrequencies` is the per-code record count. -/
theorem calculateFrequencies_eq (data : List Record) :
    calculateFrequencies data =
      ⟨data.countP (fun r => regionKey r = "100"),
       data.countP (fun r => regionKey r = "010"),
       data.countP (fun r => regionKey r = "001"),
       data.countP (fun r => regionKey r = "110"),
       data.countP (fun r => regionKey r = "101"),
       data.countP (fun r => regionKey r = "011"),
       data.countP (fun r => regionKey r = "111")⟩ := by
  unfold calculateFrequencies
  rw [foldl_bumpComb]
  simp

/-- The seven declared counters sum to the number of records whose region
    key is not the all-zero code. -/
theorem sumComb_calculateFrequencies (data : List Record) :
    sumComb (calculateFrequencies data) =
      data.countP (fun r => regionKey r ≠ "000") := by
  rw [calculateFrequencies_eq]
  unfold sumComb
  simp only [ne_eq, decide_not]
  induction data with
  | nil => simp
  | cons r d ih =>
      simp only [List.countP_cons]
      have h8 := regionKey_mem r
      simp only [sevenCodes, List.mem_cons, List.not_mem_nil, or_false] at h8
      rcases h8 with h | h | h | h | h | h | h | h <;> rw [h] <;> simp <;> omega

/-! ## Partition lemmas for the frequency grid -/

theorem list_sum_map_add {α : Type} (l : List α) (f g : α → ℕ) :
    (l.map fun x => f x + g x).sum = (l.map f).sum + (l.map g).sum := by
  induction l with
  | nil => simp
  | cons a l ih => simp [ih]; omega

theorem sum_map_ite_mem {κ : Type} [DecidableEq κ] (ks : List κ) (x : κ) (A : ℕ)
    (hk : ks.Nodup) :
    (ks.map fun k => if x = k then A else 0).sum = if x ∈ ks then A else 0 := by
  induction ks with
  | nil => simp
  | cons k ks ih =>
      rcases List.nodup_cons.mp hk with ⟨hk1, hk2⟩
      by_cases hx : x = k
      · subst hx
        rw [List.map_cons, List.sum_cons, ih hk2]
        simp [hk1]
      · rw [List.map_cons, List.sum_cons, ih hk2]
        simp [hx, List.mem_cons]

theorem sum_map_countP (ks : List (String × String)) (hk : ks.Nodup)
    (l : List Record) :
    (ks.map fun p => l.countP (fun r => r.cgpa = p.1 ∧ r.year = p.2)).sum =
      l.countP (fun r => (r.cgpa, r.year) ∈ ks) := by
  induction l with
  | nil => simp
  | cons r l ih =>
      simp only [List.countP_cons]
      have hmatch : ∀ p : String × String,
          (if (decide (r.cgpa = p.1 ∧ r.year = p.2)) = true then (1:ℕ) else 0) =
            if (r.cgpa, r.year) = p then 1 else 0 := by
        intro p
        simp [Prod.ext_iff]
      simp only [list_sum_map_add, ih, hmatch]
      rw [sum_map_ite_mem _ _ _ hk]
      by_cases hmem : (r.cgpa, r.year) ∈ ks <;> simp [hmem]

theorem flatMap_map_sum (C Y : List String) (f : String → String → ℕ) :
    ((C.flatMap fun c => Y.map fun y => f c y).sum)
      = ((C.flatMap fun c => Y.map fun y => (c, y)).map fun p => f p.1 p.2).sum := by
  induction C with
  | nil => simp
  | cons c C ih =>
      simp only [List.flatMap_cons, List.sum_append, ih, List.map_append, List.map_map]
      rfl

theorem pair_mem_flatMap (C Y : List String) (a b : String) :
    (a, b) ∈ (C.flatMap fun c => Y.map fun y => (c, y)) ↔ a ∈ C ∧ b ∈ Y := by
  simp [List.mem_flatMap, List.mem_map, Prod.ext_iff]

theorem gridTotal_eq (sel : Option String) (data : List Record) :
    gridTotal sel data =
      (filterRegion sel data).countP
        (fun r => r.cgpa ∈ cgpaRanges ∧ r.year ∈ yearsOfStudy) := by
  have h1 : gridTotal sel data
      = (cgpaRanges.flatMap fun c => yearsOfStudy.map fun y =>
          (filterRegion sel data).countP (fun r => r.cgpa = c ∧ r.year = y)).sum := by
    unfold gridTotal frequencyData
    simp [List.map_flatMap, List.map_map, Function.comp_def, List.countP_eq_length_filter]
  rw [h1, flatMap_map_sum]
  rw [sum_map_countP _ (by decide)]
  apply List.countP_congr
  intro r hr
  simp [pair_mem_flatMap]

/-! ## Link-map and node-registry lemmas (Sankey) -/

theorem addLink_cons_hit (l : SLink) (rest : List SLink) (s t : String)
    (h : l.source = s ∧ l.target = t) :
    addLink (l :: rest) s t = { l with value := l.value + 1 } :: rest := by
  simp [addLink, h]

theorem addLink_cons_miss (l : SLink) (rest : List SLink) (s t : String)
    (h : ¬(l.source = s ∧ l.target = t)) :
    addLink (l :: rest) s t = l :: addLink rest s t := by
  simp [addLink, h]

theorem linkWeight_cons (l : SLink) (rest : List SLink) (s t : String) :
    linkWeight (l :: rest) s t =
      (if l.source = s ∧ l.target = t then l.value else 0) + linkWeight rest s t := by
  unfold linkWeight
  by_cases h : l.source = s ∧ l.target = t <;> simp [List.filter_cons, h]

theorem linkWeight_addLink (links : List SLink) (s t s' t' : String) :
    linkWeight (addLink links s' t') s t =
      linkWeight links s t + if s' = s ∧ t' = t then 1 else 0 := by
  induction links with
  | nil =>
      by_cases h : s' = s ∧ t' = t
      · rcases h with ⟨hs, ht⟩
        subst hs; subst ht
        simp [addLink, linkWeight]
      · simp [addLink, linkWeight, h]
  | cons l rest ih =>
      by_cases hkey : l.source = s' ∧ l.target = t'
      · rw [addLink_cons_hit _ _ _ _ hkey, linkWeight_cons, linkWeight_cons]
        by_cases hf : l.source = s ∧ l.target = t
        · have hst : s' = s ∧ t' = t := ⟨hkey.1.symm.trans hf.1, hkey.2.symm.trans hf.2⟩
          simp [hf, hst]
          omega
        · have hst : ¬(s' = s ∧ t' = t) := fun hst => hf ⟨hkey.1.trans hst.1, hkey.2.trans hst.2⟩
          simp [hf, hst]
      · rw [addLink_cons_miss _ _ _ _ hkey, linkWeight_cons, linkWeight_cons, ih]
        omega

theorem linkKeys_cons (l : SLink) (rest : List SLink) :
    linkKeys (l :: rest) = (l.source, l.target) :: linkKeys rest := rfl

theorem sumWeights_cons (p : String → String → Bool) (l : SLink) (rest : List SLink) :
    sumWeights p (l :: rest) =
      (if p l.source l.target then l.value else 0) + sumWeights p rest := by
  unfold sumWeights
  by_cases h : p l.source l.target <;> simp [List.filter_cons, h]

theorem sumWeights_addLink (p : String → String → Bool) (links : List SLink) (s t : String) :
    sumWeights p (addLink links s t) =
      sumWeights p links + if p s t then 1 else 0 := by
  induction links with
  | nil =>
      show sumWeights p [⟨s, t, 1⟩] = sumWeights p [] + if p s t then 1 else 0
      rw [sumWeights_cons]
      by_cases h : p s t <;> simp [sumWeights, h]
  | cons l rest ih =>
      by_cases hkey : l.source = s ∧ l.target = t
      · rw [addLink_cons_hit _ _ _ _ hkey, sumWeights_cons, sumWeights_cons]
        rcases hkey with ⟨h1, h2⟩
        subst h1; subst h2
        by_cases hp : p l.source l.target <;> (simp [hp]; try omega)
      · rw [addLink_cons_miss _ _ _ _ hkey, sumWeights_cons, sumWeights_cons, ih]
        omega

theorem sumWeights_foldl (p : String → String → Bool) (cond : String) (data : List Record) :
    ∀ links, sumWeights p
        (data.foldl (fun links r =>
          addLink (addLink links (cgpaNodeName r) (condNodeName cond r))
            (condNodeName cond r) (treatNodeName r)) links) =
      sumWeights p links +
        data.countP (fun r => p (cgpaNodeName r) (condNodeName cond r)) +
        data.countP (fun r => p (condNodeName cond r) (treatNodeName r)) := by
  induction data with
  | nil => intro links; simp
  | cons r d ih =>
      intro links
      simp only [List.foldl_cons, ih, List.countP_cons, sumWeights_addLink]
      by_cases h1 : p (cgpaNodeName r) (condNodeName cond r) <;>
        by_cases h2 : p (condNodeName cond r) (treatNodeName r) <;>
          simp [h1, h2] <;> omega

theorem sumWeights_buildLinks (p : String → String → Bool) (cond : String)
    (data : List Record) :
    sumWeights p (buildLinks cond data) =
      data.countP (fun r => p (cgpaNodeName r) (condNodeName cond r)) +
        data.countP (fun r => p (condNodeName cond r) (treatNodeName r)) := by
  unfold buildLinks
  rw [sumWeights_foldl]
  simp [sumWeights]

theorem linkWeight_foldl (cond s t : String) (data : List Record) :
    ∀ links, linkWeight (data.foldl (fun links r =>
        addLink (addLink links (cgpaNodeName r) (condNodeName cond r))
          (condNodeName cond r) (treatNodeName r)) links) s t =
      linkWeight links s t +
        data.countP (fun r => cgpaNodeName r = s ∧ condNodeName cond r = t) +
        data.countP (fun r => condNodeName cond r = s ∧ treatNodeName r = t) := by
  induction data with
  | nil => intro links; simp
  | cons r d ih =>
      intro links
      simp only [List.foldl_cons, ih, List.countP_cons, linkWeight_addLink]
      by_cases h1 : cgpaNodeName r = s ∧ condNodeName cond r = t <;>
        by_cases h2 : condNodeName cond r = s ∧ treatNodeName r = t <;>
          simp [h1, h2] <;> omega

theorem linkWeight_buildLinks (cond : String) (data : List Record) (s t : String) :
    linkWeight (buildLinks cond data) s t =
      data.countP (fun r => cgpaNodeName r = s ∧ condNodeName cond r = t) +
        data.countP (fun r => condNodeName cond r = s ∧ treatNodeName r = t) := by
  unfold buildLinks
  rw [linkWeight_foldl]
  simp [linkWeight]

theorem mem_linkKeys_of_mem (links : List SLink) (l : SLink) (hl : l ∈ links) :
    (l.source, l.target) ∈ linkKeys links := by
  simp only [linkKeys, List.mem_map]
  exact ⟨l, hl, rfl⟩

theorem mem_linkKeys_addLink (links : List SLink) (s t : String) (k : String × String)
    (h : k ∈ linkKeys (addLink links s t)) : k ∈ linkKeys links ∨ k = (s, t) := by
  induction links with
  | nil =>
      right
      simp [addLink, linkKeys] at h
      simp [h]
  | cons l rest ih =>
      by_cases hkey : l.source = s ∧ l.target = t
      · rw [addLink_cons_hit _ _ _ _ hkey, linkKeys_cons] at h
        rw [linkKeys_cons]
        simp only [List.mem_cons] at h ⊢
        rcases h with h | h
        · exact Or.inl (Or.inl h)
        · exact Or.inl (Or.inr h)
      · rw [addLink_cons_miss _ _ _ _ hkey, linkKeys_cons] at h
        rw [linkKeys_cons]
        simp only [List.mem_cons] at h ⊢
        rcases h with h | h
        · exact Or.inl (Or.inl h)
        · rcases ih h with h2 | h2
          · exact Or.inl (Or.inr h2)
          · exact Or.inr h2

theorem nodup_linkKeys_addLink (links : List SLink) (s t : String)
    (h : (linkKeys links).Nodup) : (linkKeys (addLink links s t)).Nodup := by
  induction links with
  | nil => simp [addLink, linkKeys]
  | cons l rest ih =>
      rw [linkKeys_cons] at h
      rcases List.nodup_cons.mp h with ⟨hne, hrest⟩
      by_cases hkey : l.source = s ∧ l.target = t
      · rw [addLink_cons_hit _ _ _ _ hkey, linkKeys_cons]
        exact List.nodup_cons.mpr ⟨hne, hrest⟩
      · rw [addLink_cons_miss _ _ _ _ hkey, linkKeys_cons]
        refine List.nodup_cons.mpr ⟨?_, ih hrest⟩
        intro hmem
        rcases mem_linkKeys_addLink _ _ _ _ hmem with hmem | hmem
        · exact hne hmem
        · exact hkey ⟨congrArg Prod.fst hmem, congrArg Prod.snd hmem⟩

theorem nodup_linkKeys_buildLinks (cond : String) (data : List Record) :
    (linkKeys (buildLinks cond data)).Nodup := by
  unfold buildLinks
  have h : ∀ links, (linkKeys links).Nodup →
      (linkKeys (data.foldl (fun links r =>
        addLink (addLink links (cgpaNodeName r) (condNodeName cond r))
          (condNodeName cond r) (treatNodeName r)) links)).Nodup := by
    induction data with
    | nil => intro links hl; exact hl
    | cons r d ih =>
        intro links hl
        simp only [List.foldl_cons]
        exact ih _ (nodup_linkKeys_addLink _ _ _ (nodup_linkKeys_addLink _ _ _ hl))
  exact h [] (by simp [linkKeys])

theorem value_pos_addLink (links : List SLink) (s t : String)
    (h : ∀ l ∈ links, 1 ≤ l.value) : ∀ l ∈ addLink links s t, 1 ≤ l.value := by
  induction links with
  | nil =>
      intro l hl
      simp [addLink] at hl
      simp [hl]
  | cons x rest ih =>
      by_cases hkey : x.source = s ∧ x.target = t
      · rw [addLink_cons_hit _ _ _ _ hkey]
        intro l hl
        rcases List.mem_cons.mp hl with rfl | hl
        · simp
        · exact h l (List.mem_cons_of_mem _ hl)
      · rw [addLink_cons_miss _ _ _ _ hkey]
        intro l hl
        rcases List.mem_cons.mp hl with rfl | hl
        · exact h l (List.mem_cons_self _ _)
        · exact ih (fun l' hl' => h l' (List.mem_cons_of_mem _ hl')) l hl

theorem value_pos_buildLinks (cond : String) (data : List Record) :
    ∀ l ∈ buildLinks cond data, 1 ≤ l.value := by
  unfold buildLinks
  have h : ∀ links, (∀ l ∈ links, 1 ≤ l.value) →
      ∀ l ∈ data.foldl (fun links r =>
        addLink (addLink links (cgpaNodeName r) (condNodeName cond r))
          (condNodeName cond r) (treatNodeName r)) links, 1 ≤ l.value := by
    induction data with
    | nil => intro links hl; exact hl
    | cons r d ih =>
        intro links hl
        simp only [List.foldl_cons]
        exact ih _ (value_pos_addLink _ _ _ (value_pos_addLink _ _ _ hl))
  exact h [] (by simp)

theorem linkWeight_eq_zero (links : List SLink) (s t : String)
    (h : (s, t) ∉ linkKeys links) : linkWeight links s t = 0 := by
  induction links with
  | nil => simp [linkWeight]
  | cons l rest ih =>
      rw [linkWeight_cons, linkKeys_cons] at *
      simp only [List.mem_cons] at h
      push_neg at h
      have hne : ¬(l.source = s ∧ l.target = t) := by
        rintro ⟨rfl, rfl⟩
        exact h.1 rfl
      simp [hne, ih h.2]

theorem value_eq_linkWeight (links : List SLink) (h : (linkKeys links).Nodup) :
    ∀ l ∈ links, l.value = linkWeight links l.source l.target := by
  induction links with
  | nil => simp
  | cons x rest ih =>
      rw [linkKeys_cons] at h
      rcases List.nodup_cons.mp h with ⟨hne, hrest⟩
      intro l hl
      rcases List.mem_cons.mp hl with rfl | hl
      · rw [linkWeight_cons]
        rw [linkWeight_eq_zero rest _ _ hne]
        simp
      · rw [linkWeight_cons]
        have hnex : ¬(x.source = l.source ∧ x.target = l.target) := by
          rintro ⟨h1, h2⟩
          apply hne
          rw [h1, h2]
          exact mem_linkKeys_of_mem rest l hl
        simp [hnex]
        exact ih hrest l hl

theorem nodup_addNode (nodes : List String) (n : String) (h : nodes.Nodup) :
    (addNode nodes n).Nodup := by
  unfold addNode
  split_ifs with hmem
  · exact h
  · simp [List.nodup_append, h, hmem]

theorem nodup_buildNodes (cond : String) (data : List Record) :
    (buildNodes cond data).Nodup := by
  unfold buildNodes
  have h : ∀ nodes : List String, nodes.Nodup →
      (data.foldl (fun ns r =>
        addNode (addNode (addNode ns (cgpaNodeName r)) (condNodeName cond r))
          (treatNodeName r)) nodes).Nodup := by
    induction data with
    | nil => intro ns hn; exact hn
    | cons r d ih =>
        intro ns hn
        simp only [List.foldl_cons]
        exact ih _ (nodup_addNode _ _ (nodup_addNode _ _ (nodup_addNode _ _ hn)))
  exact h [] (by simp)

/-! ## Node-name facts and claim theorems -/

theorem getCgpabin_mem (o : Option ℚ) : getCgpabin o ∈ "Unknown" :: cgpaBinLabels := by
  cases o with
  | none => simp [getCgpabin]
  | some c =>
      simp only [getCgpabin]
      split_ifs <;> decide

theorem isCgpaStageName_cgpaNodeName (r : Record) :
    isCgpaStageName (cgpaNodeName r) = true := by
  have h := getCgpabin_mem r.cgpaParsed
  unfold cgpaNodeName isCgpaStageName
  simp only [cgpaBinLabels, List.mem_cons, List.not_mem_nil, or_false] at h
  rcases h with h | h | h | h | h | h <;> rw [h] <;> decide

theorem condNodeName_cases (cond : String) (r : Record) :
    condNodeName cond r = cond ++ " Yes" ∨ condNodeName cond r = cond ++ " No" := by
  unfold condNodeName
  have hy : (" " : String) ++ "Yes" = " Yes" := by decide
  have hn : (" " : String) ++ "No" = " No" := by decide
  by_cases h : condAnswer r cond = "Yes"
  · left; rw [if_pos h, String.append_assoc, hy]
  · right; rw [if_neg h, String.append_assoc, hn]

theorem isCgpaStageName_condNodeName (cond : String) (hcond : cond ∈ conditionOptions)
    (r : Record) : isCgpaStageName (condNodeName cond r) = false := by
  simp only [conditionOptions, List.mem_cons, List.not_mem_nil, or_false] at hcond
  rcases condNodeName_cases cond r with h | h <;>
    rcases hcond with rfl | rfl | rfl <;> rw [h] <;> decide

theorem isTreatmentName_condNodeName (cond : String) (hcond : cond ∈ conditionOptions)
    (r : Record) : isTreatmentName (condNodeName cond r) = false := by
  simp only [conditionOptions, List.mem_cons, List.not_mem_nil, or_false] at hcond
  rcases condNodeName_cases cond r with h | h <;>
    rcases hcond with rfl | rfl | rfl <;> rw [h] <;> decide

theorem isTreatmentName_treatNodeName (r : Record) :
    isTreatmentName (treatNodeName r) = true := by
  unfold treatNodeName isTreatmentName
  by_cases h : r.treatment = "Yes"
  · rw [if_pos h]; decide
  · rw [if_neg h]; decide

theorem contains_bins_condNodeName (cond : String) (hcond : cond ∈ conditionOptions)
    (r : Record) : cgpaBinLabels.contains (condNodeName cond r) = false := by
  simp only [conditionOptions, List.mem_cons, List.not_mem_nil, or_false] at hcond
  rcases condNodeName_cases cond r with h | h <;>
    rcases hcond with rfl | rfl | rfl <;> rw [h] <;> decide

theorem cgpaNodeName_ne_condNodeName (cond : String) (hcond : cond ∈ conditionOptions)
    (r r' : Record) : cgpaNodeName r ≠ condNodeName cond r' := by
  intro h
  have h1 := isCgpaStageName_cgpaNodeName r
  rw [h, isCgpaStageName_condNodeName cond hcond r'] at h1
  exact Bool.false_ne_true h1

/-- Counterexample to claim C1 as stated: a record with an unparseable CGPA is
NOT excluded from bin-node creation — it is routed to the sentinel "Unknown"
node, so the first-stage edge weights sum to 1 while the count of records
with a parseable CGPA is 0. -/
theorem C1_counterexample_unparseable_cgpa :
    sumWeights (fun s _ => isCgpaStageName s) (buildLinks "Depression" [recNA]) = 1 ∧
    ([recNA] : List Record).countP (fun r => (r.cgpaParsed).isSome) = 0 ∧
    (1 : ℕ) ≠ 0 := by
  decide

/-- Claim C1 (amended): every record, parseable CGPA or not, contributes one
first-stage edge (unparseable CGPAs through the sentinel "Unknown" node), so
the edge weights out of first-stage nodes sum to the record count; the edge
weights into treatment-stage nodes sum to the record count; and the weights
out of the five proper CGPA-bin nodes sum to the count of records whose CGPA
parses into one of the five bin ranges. -/
theorem C1_amended_stage_sums :
    ∀ cond : String, cond ∈ conditionOptions → ∀ data : List Record,
      sumWeights (fun s _ => isCgpaStageName s) (buildLinks cond data) = data.length ∧
      sumWeights (fun _ t => isTreatmentName t) (buildLinks cond data) = data.length ∧
      sumWeights (fun s _ => cgpaBinLabels.contains s) (buildLinks cond data) =
        data.countP (fun r => cgpaBinLabels.contains (getCgpabin r.cgpaParsed)) := by
  intro cond hcond data
  have hbin0 : data.countP (fun r => cgpaBinLabels.contains (condNodeName cond r)) = 0 :=
    List.countP_eq_zero.mpr fun r _ => by simpa using contains_bins_condNodeName cond hcond r
  have hstage0 : data.countP (fun r => isCgpaStageName (condNodeName cond r)) = 0 :=
    List.countP_eq_zero.mpr fun r _ => by simp [isCgpaStageName_condNodeName cond hcond r]
  have htreat0 : data.countP (fun r => isTreatmentName (condNodeName cond r)) = 0 :=
    List.countP_eq_zero.mpr fun r _ => by simp [isTreatmentName_condNodeName cond hcond r]
  refine ⟨?_, ?_, ?_⟩ <;> rw [sumWeights_buildLinks]
  · rw [List.countP_eq_length.mpr fun r _ => isCgpaStageName_cgpaNodeName r, hstage0]
    omega
  · rw [htreat0, List.countP_eq_length.mpr fun r _ => isTreatmentName_treatNodeName r]
    omega
  · rw [hbin0]
    simp [cgpaNodeName]

/-- Witness for C1 (amended) at a concrete condition and dataset. -/
theorem C1_amended_stage_sums_witness :
    ("Depression" : String) ∈ conditionOptions ∧
    sumWeights (fun _ t => isTreatmentName t) (buildLinks "Depression" [recNA]) = 1 :=
  ⟨by decide, (C1_amended_stage_sums "Depression" (by decide) [recNA]).2.1⟩

theorem getCgpabin_eq_bin1_iff (q : ℚ) :
    getCgpabin (some q) = "0-1.99" ↔ 0 ≤ q ∧ q ≤ 1.99 := by
  constructor
  · intro h
    simp only [getCgpabin] at h
    split_ifs at h with h1 h2 h3 h4 h5 <;>
      first
        | assumption
        | exact absurd h (by decide)
  · intro h
    simp only [getCgpabin]
    rw [if_pos h]

theorem getCgpabin_eq_bin2_iff (q : ℚ) :
    getCgpabin (some q) = "2.0-2.49" ↔ 2.0 ≤ q ∧ q ≤ 2.49 := by
  constructor
  · intro h
    simp only [getCgpabin] at h
    split_ifs at h with h1 h2 h3 h4 h5 <;>
      first
        | assumption
        | exact absurd h (by decide)
  · intro h
    have n1 : ¬(0 ≤ q ∧ q ≤ 1.99) := by
      rintro ⟨-, hb⟩
      have := h.1
      linarith
    simp only [getCgpabin]
    rw [if_neg n1, if_pos h]

theorem getCgpabin_eq_bin3_iff (q : ℚ) :
    getCgpabin (some q) = "2.5-2.99" ↔ 2.5 ≤ q ∧ q ≤ 2.99 := by
  constructor
  · intro h
    simp only [getCgpabin] at h
    split_ifs at h with h1 h2 h3 h4 h5 <;>
      first
        | assumption
        | exact absurd h (by decide)
  · intro h
    have n1 : ¬(0 ≤ q ∧ q ≤ 1.99) := by
      rintro ⟨-, hb⟩
      have := h.1
      linarith
    have n2 : ¬(2.0 ≤ q ∧ q ≤ 2.49) := by
      rintro ⟨-, hb⟩
      have := h.1
      linarith
    simp only [getCgpabin]
    rw [if_neg n1, if_neg n2, if_pos h]

theorem getCgpabin_eq_bin4_iff (q : ℚ) :
    getCgpabin (some q) = "3.0-3.49" ↔ 3.0 ≤ q ∧ q ≤ 3.49 := by
  constructor
  · intro h
    simp only [getCgpabin] at h
    split_ifs at h with h1 h2 h3 h4 h5 <;>
      first
        | assumption
        | exact absurd h (by decide)
  · intro h
    have n1 : ¬(0 ≤ q ∧ q ≤ 1.99) := by
      rintro ⟨-, hb⟩
      have := h.1
      linarith
    have n2 : ¬(2.0 ≤ q ∧ q ≤ 2.49) := by
      rintro ⟨-, hb⟩
      have := h.1
      linarith
    have n3 : ¬(2.5 ≤ q ∧ q ≤ 2.99) := by
      rintro ⟨-, hb⟩
      have := h.1
      linarith
    simp only [getCgpabin]
    rw [if_neg n1, if_neg n2, if_neg n3, if_pos h]

theorem getCgpabin_eq_bin5_iff (q : ℚ) :
    getCgpabin (some q) = "3.5-4.0" ↔ 3.5 ≤ q ∧ q ≤ 4.0 := by
  constructor
  · intro h
    simp only [getCgpabin] at h
    split_ifs at h with h1 h2 h3 h4 h5 <;>
      first
        | assumption
        | exact absurd h (by decide)
  · intro h
    have n1 : ¬(0 ≤ q ∧ q ≤ 1.99) := by
      rintro ⟨-, hb⟩
      have := h.1
      linarith
    have n2 : ¬(2.0 ≤ q ∧ q ≤ 2.49) := by
      rintro ⟨-, hb⟩
      have := h.1
      linarith
    have n3 : ¬(2.5 ≤ q ∧ q ≤ 2.99) := by
      rintro ⟨-, hb⟩
      have := h.1
      linarith
    have n4 : ¬(3.0 ≤ q ∧ q ≤ 3.49) := by
      rintro ⟨-, hb⟩
      have := h.1
      linarith
    simp only [getCgpabin]
    rw [if_neg n1, if_neg n2, if_neg n3, if_neg n4, if_pos h]

theorem getCgpabin_eq_unknown_iff (q : ℚ) :
    getCgpabin (some q) = "Unknown" ↔
      ¬(0 ≤ q ∧ q ≤ 1.99) ∧ ¬(2.0 ≤ q ∧ q ≤ 2.49) ∧ ¬(2.5 ≤ q ∧ q ≤ 2.99) ∧
        ¬(3.0 ≤ q ∧ q ≤ 3.49) ∧ ¬(3.5 ≤ q ∧ q ≤ 4.0) := by
  constructor
  · intro h
    simp only [getCgpabin] at h
    split_ifs at h with h1 h2 h3 h4 h5 <;>
      first
        | exact ⟨h1, h2, h3, h4, h5⟩
        | exact absurd h (by decide)
  · rintro ⟨n1, n2, n3, n4, n5⟩
    simp only [getCgpabin]
    rw [if_neg n1, if_neg n2, if_neg n3, if_neg n4, if_neg n5]

/-- Claim C4 (amended): `getCgpabin` is a total pure function whose five bins
are the closed ranges [0, 1.99], [2.0, 2.49], [2.5, 2.99], [3.0, 3.49] and
[3.5, 4.0]; every other rational (the gaps between bins and everything
outside [0, 4]) and a CGPA that fails to parse map to "Unknown". -/
theorem C4_amended_bin_characterization :
    ∀ q : ℚ,
      (getCgpabin (some q) = "0-1.99" ↔ 0 ≤ q ∧ q ≤ 1.99) ∧
      (getCgpabin (some q) = "2.0-2.49" ↔ 2.0 ≤ q ∧ q ≤ 2.49) ∧
      (getCgpabin (some q) = "2.5-2.99" ↔ 2.5 ≤ q ∧ q ≤ 2.99) ∧
      (getCgpabin (some q) = "3.0-3.49" ↔ 3.0 ≤ q ∧ q ≤ 3.49) ∧
      (getCgpabin (some q) = "3.5-4.0" ↔ 3.5 ≤ q ∧ q ≤ 4.0) ∧
      (getCgpabin (some q) = "Unknown" ↔
        ¬(0 ≤ q ∧ q ≤ 1.99) ∧ ¬(2.0 ≤ q ∧ q ≤ 2.49) ∧ ¬(2.5 ≤ q ∧ q ≤ 2.99) ∧
          ¬(3.0 ≤ q ∧ q ≤ 3.49) ∧ ¬(3.5 ≤ q ∧ q ≤ 4.0)) ∧
      getCgpabin none = "Unknown" :=
  fun q =>
    ⟨getCgpabin_eq_bin1_iff q, getCgpabin_eq_bin2_iff q, getCgpabin_eq_bin3_iff q,
      getCgpabin_eq_bin4_iff q, getCgpabin_eq_bin5_iff q, getCgpabin_eq_unknown_iff q, rfl⟩

/-- Counterexample to claim C4 as stated: 1.995 lies in [0, 2.0) yet is
assigned "Unknown", not the first bin — the code's ranges are closed with
gaps, not half-open. -/
theorem C4_counterexample_gap_value :
    (0 ≤ (1.995 : ℚ) ∧ (1.995 : ℚ) < 2.0) ∧ getCgpabin (some 1.995) = "Unknown" := by
  constructor
  · constructor <;> norm_num
  · rw [getCgpabin_eq_unknown_iff]
    refine ⟨?_, ?_, ?_, ?_, ?_⟩ <;> rintro ⟨ha, hb⟩ <;> linarith

/-- Counterexample to claim C2 as stated: for the non-empty collection of one
all-"No" record, the seven region counters sum to 0, not to the record
count 1 (the all-zero code is not among the seven counted regions). -/
theorem C2_counterexample_all_no_record :
    ([recAllNo] : List Record) ≠ [] ∧
    sumComb (calculateFrequencies [recAllNo]) = 0 ∧
    ([recAllNo] : List Record).length = 1 := by
  refine ⟨by simp, by decide, rfl⟩

/-- Claim C2 (amended): the seven region counters of `calculateFrequencies`
sum to the number of records whose region code is not "000"; in particular,
for a non-empty collection in which every record answers yes
(case-insensitively) to at least one condition, the sum equals the record
count. -/
theorem C2_amended_region_sum :
    ∀ data : List Record,
      sumComb (calculateFrequencies data) =
        data.countP (fun r => regionKey r ≠ "000") ∧
      (data ≠ [] → (∀ r ∈ data, regionKey r ≠ "000") →
        sumComb (calculateFrequencies data) = data.length) := by
  intro data
  refine ⟨sumComb_calculateFrequencies data, fun _ hall => ?_⟩
  rw [sumComb_calculateFrequencies]
  exact List.countP_eq_length.mpr fun r hr => by simpa using hall r hr

/-- Witness for C2 (amended) at a concrete one-record dataset. -/
theorem C2_amended_region_sum_witness :
    ([recDep] : List Record) ≠ [] ∧ sumComb (calculateFrequencies [recDep]) = 1 := by
  refine ⟨by simp, ?_⟩
  have h := (C2_amended_region_sum [recDep]).2 (by simp) (by decide)
  simpa using h

/-- Counterexample to claim C3 as stated: a record whose raw CGPA cell is
"N/A" matches no grid label, so the unfiltered grid total is 0 while the
collection has 1 record. -/
theorem C3_counterexample_unmatched_label :
    gridTotal none [recNA] = 0 ∧ ([recNA] : List Record).length = 1 := by
  refine ⟨by decide, rfl⟩

/-- Claim C3 (amended): when every record's raw CGPA cell is one of the five
range labels and its year cell one of the four year labels, the grid total
with no active region equals the record count, and with an active region
code it equals the count that `calculateFrequencies` reports for that
code. -/
theorem C3_amended_grid_totals :
    ∀ data : List Record,
      (∀ r ∈ data, r.cgpa ∈ cgpaRanges ∧ r.year ∈ yearsOfStudy) →
        gridTotal none data = data.length ∧
        ∀ code ∈ sevenCodes,
          gridTotal (some code) data = getComb (calculateFrequencies data) code := by
  intro data hlab
  constructor
  · rw [gridTotal_eq]
    exact List.countP_eq_length.mpr fun r hr => by simpa using hlab r hr
  · intro code hcode
    have hne : code ≠ "" := by
      simp only [sevenCodes, List.mem_cons, List.not_mem_nil, or_false] at hcode
      rcases hcode with rfl | rfl | rfl | rfl | rfl | rfl | rfl <;> decide
    rw [gridTotal_eq]
    have hfil : filterRegion (some code) data =
        data.filter (fun r => regionKey r = code) := by
      simp only [filterRegion]
      rw [if_neg hne]
    rw [hfil]
    have hlen : (data.filter (fun r => regionKey r = code)).countP
        (fun r => r.cgpa ∈ cgpaRanges ∧ r.year ∈ yearsOfStudy) =
        (data.filter (fun r => regionKey r = code)).length :=
      List.countP_eq_length.mpr fun r hr => by
        simpa using hlab r (List.mem_of_mem_filter hr)
    rw [hlen, ← List.countP_eq_length_filter]
    rw [calculateFrequencies_eq]
    simp only [sevenCodes, List.mem_cons, List.not_mem_nil, or_false] at hcode
    rcases hcode with rfl | rfl | rfl | rfl | rfl | rfl | rfl <;> simp [getComb]

/-- Witness for C3 (amended) at a concrete label-valid dataset. -/
theorem C3_amended_grid_totals_witness :
    gridTotal none [recDep] = 1 ∧
    gridTotal (some "100") [recDep] = getComb (calculateFrequencies [recDep]) "100" := by
  have h := C3_amended_grid_totals [recDep] (by decide)
  exact ⟨by simpa using h.1, h.2 "100" (by decide)⟩

/-- Claim C10: every record contributes to at most one cell of the frequency
grid — the grid total equals the count of (filtered) records whose cells
match some (CGPA-range, year) label pair exactly, hence never exceeds the
number of filtered records, which never exceeds the number of records. -/
theorem C10_grid_disjointness :
    ∀ (sel : Option String) (data : List Record),
      gridTotal sel data =
        (filterRegion sel data).countP
          (fun r => r.cgpa ∈ cgpaRanges ∧ r.year ∈ yearsOfStudy) ∧
      gridTotal sel data ≤ (filterRegion sel data).length ∧
      (filterRegion sel data).length ≤ data.length := by
  intro sel data
  refine ⟨gridTotal_eq sel data, ?_, ?_⟩
  · rw [gridTotal_eq]
    exact List.countP_le_length _
  · cases sel with
    | none =>
        simp only [filterRegion]
        exact le_refl _
    | some code =>
        simp only [filterRegion]
        split_ifs
        · exact le_refl _
        · exact List.length_filter_le _ _

/-- Claim C7: aggregation is order-insensitive — permuting the record
collection leaves both `calculateFrequencies` and the frequency grid
bit-identical, for every selection state. -/
theorem C7_order_insensitive :
    ∀ (data1 data2 : List Record) (sel : Option String),
      data1.Perm data2 →
        calculateFrequencies data1 = calculateFrequencies data2 ∧
        frequencyData sel data1 = frequencyData sel data2 := by
  intro d1 d2 sel hperm
  constructor
  · rw [calculateFrequencies_eq, calculateFrequencies_eq]
    simp only [hperm.countP_eq]
  · have hfil : ∀ p : Record → Bool,
        (filterRegion sel d1).countP p = (filterRegion sel d2).countP p := by
      intro p
      cases sel with
      | none =>
          simp only [filterRegion]
          exact hperm.countP_eq p
      | some code =>
          simp only [filterRegion]
          split_ifs
          · exact hperm.countP_eq p
          · exact (hperm.filter _).countP_eq p
    have hlen : ∀ c y : String,
        ((filterRegion sel d1).filter (fun r => decide (r.cgpa = c ∧ r.year = y))).length =
          ((filterRegion sel d2).filter (fun r => decide (r.cgpa = c ∧ r.year = y))).length := by
      intro c y
      rw [← List.countP_eq_length_filter, ← List.countP_eq_length_filter]
      exact hfil _
    simp only [frequencyData]
    simp only [hlen]

/-- Witness for C7 at a concrete two-record permutation. -/
theorem C7_order_insensitive_witness :
    calculateFrequencies [recDep, recNA] = calculateFrequencies [recNA, recDep] :=
  (C7_order_insensitive [recDep, recNA] [recNA, recDep] none
    (List.Perm.swap recNA recDep [])).1

/-- Counterexample to claim C8 as stated: the coordinator does not reject an
out-of-enumeration region code — the setter stores "abc" verbatim instead of
retaining the prior valid state. -/
theorem C8_counterexample_invalid_accepted :
    (setSelectedRegion initialState (some "abc")).selectedRegion = some "abc" ∧
    some "abc" ≠ initialState.selectedRegion ∧
    "abc" ∉ sevenCodes := by
  decide

/-- Claim C8 (amended): the coordinator's two setters are total replacements
of their field (nothing is rejected and no exception can arise); invalid
values never reach them because every code the region view's click targets
can emit is one of the seven valid codes, and every condition-picker option
is one of the three condition column names. -/
theorem C8_amended_boundary :
    (∀ c ∈ vennClickCodes, c ∈ sevenCodes) ∧
    (∀ c ∈ conditionOptions,
      c = "Depression" ∨ c = "Anxiety" ∨ c = "Panic attack") ∧
    (∀ (st : SelectionState) (c : Option String),
      (setSelectedRegion st c).selectedRegion = c ∧
      (setSelectedRegion st c).selectedCondition = st.selectedCondition) ∧
    (∀ (st : SelectionState) (c : String),
      (setSelectedCondition st c).selectedCondition = c ∧
      (setSelectedCondition st c).selectedRegion = st.selectedRegion) :=
  ⟨by decide, by decide, fun _ _ => ⟨rfl, rfl⟩, fun _ _ => ⟨rfl, rfl⟩⟩

/-- Witness for C8 (amended) at the initial state and the code "100". -/
theorem C8_amended_boundary_witness :
    ("100" : String) ∈ vennClickCodes ∧ ("100" : String) ∈ sevenCodes ∧
    (setSelectedRegion initialState (some "100")).selectedRegion = some "100" :=
  ⟨by decide, C8_amended_boundary.1 "100" (by decide),
    (C8_amended_boundary.2.2.1 initialState (some "100")).1⟩

/-- Claim C9: yes/no status derivation is case-sensitive in the flow-graph
builder but case-insensitive in the region classifier.  For a record whose
active-condition cell is the lowercase string "yes", the classifier digit
(`yesBit`, as used by `regionKey`) is "1", while the builder derives the
"{condition} No" node (only the exact string "Yes" maps to Yes). -/
theorem C9_case_sensitivity_split :
    ∀ cond : String, cond ∈ conditionOptions → ∀ r : Record,
      condAnswer r cond = "yes" →
        yesBit (condAnswer r cond) = "1" ∧
        condNodeName cond r = cond ++ " No" := by
  intro cond _ r h
  constructor
  · rw [h]
    decide
  · unfold condNodeName
    rw [if_neg (by rw [h]; decide), String.append_assoc,
      show (" " : String) ++ "No" = " No" by decide]

/-- Witness for C9 at a concrete record with a lowercase "yes" cell. -/
theorem C9_case_sensitivity_split_witness :
    ("Depression" : String) ∈ conditionOptions ∧
    condAnswer recLowerYes "Depression" = "yes" ∧
    yesBit (condAnswer recLowerYes "Depression") = "1" ∧
    condNodeName "Depression" recLowerYes = "Depression No" :=
  ⟨by decide, by decide,
    C9_case_sensitivity_split "Depression" (by decide) recLowerYes (by decide)⟩

/-- Claim C6: the within-rank comparator orders any two CGPA-bin nodes
ascending by their fixed bin index (it reads only the node names, never
registration order); among condition-status nodes of the active condition
it places "No" before "Yes"; among treatment-status nodes "No" before
"Yes"; and in cross-category comparisons the node of the earlier tier
compares first. -/
theorem C6_comparator_ordering :
    ∀ cond : String, cond ∈ conditionOptions →
      (∀ a ∈ cgpaBinLabels, ∀ b ∈ cgpaBinLabels,
        jsIndexOf cgpaBinLabels a < jsIndexOf cgpaBinLabels b →
          nodeSort cond a b < 0 ∧ 0 < nodeSort cond b a) ∧
      (nodeSort cond (cond ++ " No") (cond ++ " Yes") < 0 ∧
        0 < nodeSort cond (cond ++ " Yes") (cond ++ " No")) ∧
      (nodeSort cond "Treatment No" "Treatment Yes" < 0 ∧
        0 < nodeSort cond "Treatment Yes" "Treatment No") ∧
      (∀ a ∈ cgpaBinLabels,
        ∀ x ∈ [cond ++ " No", cond ++ " Yes", "Treatment No", "Treatment Yes"],
          nodeSort cond a x < 0 ∧ 0 < nodeSort cond x a) ∧
      (∀ c ∈ [cond ++ " No", cond ++ " Yes"],
        ∀ t ∈ ["Treatment No", "Treatment Yes"],
          nodeSort cond c t < 0 ∧ 0 < nodeSort cond t c) := by
  intro cond hcond
  simp only [conditionOptions, List.mem_cons, List.not_mem_nil, or_false] at hcond
  rcases hcond with rfl | rfl | rfl <;> decide

/-- Witness for C6 at the Depression condition and two concrete bins. -/
theorem C6_comparator_ordering_witness :
    ("Depression" : String) ∈ conditionOptions ∧
    nodeSort "Depression" "0-1.99" "3.5-4.0" < 0 :=
  ⟨by decide,
    ((C6_comparator_ordering "Depression" (by decide)).1 "0-1.99" (by decide)
      "3.5-4.0" (by decide) (by decide)).1⟩

theorem countP_or_disjoint {α : Type} (l : List α) (p q : α → Prop)
    [DecidablePred p] [DecidablePred q] (h : ∀ a ∈ l, ¬(p a ∧ q a)) :
    (l.countP fun a => p a ∨ q a) =
      (l.countP fun a => p a) + (l.countP fun a => q a) := by
  induction l with
  | nil => simp
  | cons a l ih =>
      simp only [List.countP_cons]
      rw [ih fun x hx => h x (List.mem_cons_of_mem _ hx)]
      have ha := h a (List.mem_cons_self _ _)
      by_cases hp : p a <;> by_cases hq : q a
      · exact absurd ⟨hp, hq⟩ ha
      all_goals simp [hp, hq] <;> omega

/-- Claim C5: the flow graph has no two edges with the same
(source, target) pair, every edge's weight is at least 1 and equals the
count of records deriving that pair, node names are registered once
(records deriving the same name collapse), and the two scenario-B records
with CGPA 3.6 and 3.7 yield exactly one "3.5-4.0" node whose outgoing edge
carries weight 2. -/
theorem C5_flow_edge_invariants :
    ∀ cond : String, cond ∈ conditionOptions → ∀ data : List Record,
      (linkKeys (buildLinks cond data)).Nodup ∧
      (∀ l ∈ buildLinks cond data, 1 ≤ l.value ∧
        l.value = data.countP (fun r =>
          (cgpaNodeName r = l.source ∧ condNodeName cond r = l.target) ∨
          (condNodeName cond r = l.source ∧ treatNodeName r = l.target))) ∧
      (buildNodes cond data).Nodup ∧
      buildNodes "Depression" [recB1, recB2] =
        ["3.5-4.0", "Depression Yes", "Treatment No"] ∧
      linkWeight (buildLinks "Depression" [recB1, recB2]) "3.5-4.0" "Depression Yes" = 2 := by
  intro cond hcond data
  have hb1 : cgpaNodeName recB1 = "3.5-4.0" := by
    rw [cgpaNodeName, show recB1.cgpaParsed = some 3.6 from rfl]
    exact (getCgpabin_eq_bin5_iff _).mpr (by norm_num)
  have hb2 : cgpaNodeName recB2 = "3.5-4.0" := by
    rw [cgpaNodeName, show recB2.cgpaParsed = some 3.7 from rfl]
    exact (getCgpabin_eq_bin5_iff _).mpr (by norm_num)
  refine ⟨nodup_linkKeys_buildLinks cond data, ?_, nodup_buildNodes cond data, ?_, ?_⟩
  · intro l hl
    have hv := value_eq_linkWeight _ (nodup_linkKeys_buildLinks cond data) l hl
    refine ⟨value_pos_buildLinks cond data l hl, ?_⟩
    rw [hv, linkWeight_buildLinks,
      countP_or_disjoint data _ _ fun r _ hand =>
        cgpaNodeName_ne_condNodeName cond hcond r r (hand.1.1.trans hand.2.1.symm)]
  · simp only [buildNodes, List.foldl_cons, List.foldl_nil, hb1, hb2]
    decide
  · simp only [buildLinks, List.foldl_cons, List.foldl_nil, hb1, hb2]
    decide

/-- Witness for C5 at the Depression condition and the scenario-B records. -/
theorem C5_flow_edge_invariants_witness :
    ("Depression" : String) ∈ conditionOptions ∧
    (buildNodes "Depression" [recB1, recB2]).Nodup :=
  ⟨by decide, (C5_flow_edge_invariants "Depression" (by decide) [recB1, recB2]).2.2.1⟩


/-- Witness for C4 (amended) at concrete CGPA values. -/
theorem C4_amended_bin_characterization_witness :
    getCgpabin (some (1 : ℚ)) = "0-1.99" ∧ getCgpabin none = "Unknown" :=
  ⟨(C4_amended_bin_characterization 1).1.mpr (by norm_num),
    (C4_amended_bin_characterization 1).2.2.2.2.2.2⟩

/-- Witness for C10 at a concrete selection and dataset. -/
theorem C10_grid_disjointness_witness :
    gridTotal none [recDep] ≤ ([recDep] : List Record).length :=
  (C10_grid_disjointness none [recDep]).2.1
